import Mathlib

/-!
Verification of the DDL statement-builder module `lib/operations/tables.js`
of node-pg-migrate.

The JavaScript source is shallowly embedded:

* option records become the structure `ColumnOptions` (a JS `undefined` field
  is `none`; JS truthiness of a string field is `strTruthy`);
* the table-level `ColumnSet` mapping becomes an association list, whose
  order models JS object insertion order;
* the external collaborators `escapeValue` and `template` from `lib/utils`
  are not part of the analysed source and are modelled from the spec:
  `template` as plain positional interpolation (the spec: "format a SQL
  fragment by positionally substituting already-quoted/escaped pieces"),
  `escapeValue` as a literal renderer over the value universe `JsLit`;
* `String.prototype.replace(/^/gm, p)` becomes `leadLines p`;
* the in-place update `options.type = applyTypeAdapters(options.type)`
  performed on caller-supplied records is captured by a second, heap-passing
  model (`parseColumnsM`) in which records referenced by the column set or
  the shorthand dictionary live in an explicit heap.
-/

/-- Language-level values that may appear as a column `default` (or any other
escaped literal position): null, booleans, numbers, strings, and raw SQL
fragments explicitly flagged as raw. -/
inductive JsLit where
  | null
  | bool (b : Bool)
  | num (n : Int)
  | str (s : String)
  | raw (s : String)
  deriving DecidableEq, Repr

/-- Modelled from the spec: the external literal-escaping collaborator from
`lib/utils` ("value → literal text, must handle at minimum: null, boolean,
numeric, string, and pass arbitrary already-valid raw SQL fragments through
unescaped when explicitly flagged as raw"; string literals are single-quoted
per the output contract). -/
def escapeValue : JsLit → String
  | JsLit.null => "NULL"
  | JsLit.bool true => "true"
  | JsLit.bool false => "false"
  | JsLit.num n => toString n
  | JsLit.str s => "'" ++ s ++ "'"
  | JsLit.raw s => s

/-- A column option record (spec §3 ColumnSpec, record form).  A field that
is absent/`undefined` in JS is `none` (for the boolean-or-absent `notNull`,
`some true` / `some false` / `none` track truthy / `=== false` / undefined,
which `alterColumn` distinguishes).  `allowNull` is the extra flag read only
by `alterColumn`. -/
structure ColumnOptions where
  type : Option String := none
  default : Option JsLit := none
  unique : Bool := false
  primaryKey : Bool := false
  notNull : Option Bool := none
  check : Option String := none
  references : Option String := none
  onDelete : Option String := none
  onUpdate : Option String := none
  allowNull : Bool := false
  deriving DecidableEq, Repr

/-- The record every field of which is absent, i.e. the JS empty object. -/
def defaultOpts : ColumnOptions := {}

/-- JS truthiness of an optional string: present and nonempty. -/
def strTruthy : Option String → Bool
  | none => false
  | some s => !(s == "")

/-- JS template interpolation of a possibly-undefined string: interpolating
`undefined` renders the text `undefined`. -/
def renderType : Option String → String
  | none => "undefined"
  | some s => s

/-- First-match association-list lookup (JS object property access on the
literal tables used by the module). -/
def assocFind {α : Type} : List (String × α) → String → Option α
  | [], _ => none
  | (k, v) :: rest, s => if k = s then some v else assocFind rest s

/-- The fixed `type_adapters` table (source lines 4-11). -/
def type_adapters : List (String × String) :=
  [("int", "integer"), ("string", "text"), ("float", "real"),
   ("double", "double precision"), ("datetime", "timestamp"), ("bool", "boolean")]

/-- Source line 18: `type => (type_adapters[type] ? type_adapters[type] : type)`.
Every value in the table is a nonempty string, so JS truthiness of the looked-up
value coincides with presence. -/
def applyTypeAdapters (type : String) : String :=
  match assocFind type_adapters type with
  | some t => t
  | none => type

/-- Source line 31, `options.type = applyTypeAdapters(options.type)`, as a
record transformation.  Property access with an `undefined` key misses the
adapter table, so an absent type stays absent. -/
def adaptRec (o : ColumnOptions) : ColumnOptions :=
  { o with type := o.type.map applyTypeAdapters }

/-- The built-in `default_type_shorthands` table (source lines 13-15). -/
def default_type_shorthands : List (String × ColumnOptions) :=
  [("id", { type := some "serial", primaryKey := true })]

/-- Lookup in the merged dictionary `{...default_type_shorthands,
...extending_type_shorthands}` (source line 23): a caller entry shadows a
built-in of the same name. -/
def mergedShorthands (ext : List (String × ColumnOptions)) (s : String) :
    Option ColumnOptions :=
  match assocFind ext s with
  | some r => some r
  | none => assocFind default_type_shorthands s

/-- A ColumnSpec (spec §3): either a plain shorthand/type string or an option
record. -/
inductive ColumnSpecP where
  | str (s : String)
  | record (o : ColumnOptions)
  deriving DecidableEq, Repr

/-- Source lines 25-29: a string spec resolves against the merged shorthand
dictionary, falling back to a fresh record whose only set field is `type`;
a record spec is used as-is. -/
def resolveColumnSpec (ext : List (String × ColumnOptions)) :
    ColumnSpecP → ColumnOptions
  | ColumnSpecP.str s =>
    match mergedShorthands ext s with
    | some r => r
    | none => { type := some s }
  | ColumnSpecP.record o => o

/-- Source lines 24-34: shorthand resolution followed by the unconditional
type-adapter write on line 31. -/
def expandColumn (ext : List (String × ColumnOptions)) (sp : ColumnSpecP) :
    ColumnOptions :=
  adaptRec (resolveColumnSpec ext sp)

/-- The `_.mapValues` pass over the whole column set (source line 24). -/
def expandSet (ext : List (String × ColumnOptions))
    (columns : List (String × ColumnSpecP)) : List (String × ColumnOptions) :=
  columns.map fun p => (p.1, expandColumn ext p.2)

/-- `Array.prototype.join(sep)`. -/
def joinSep (sep : String) : List String → String
  | [] => ""
  | [x] => x
  | x :: y :: xs => x ++ sep ++ joinSep sep (y :: xs)

/-- Source line 20: `array => array.map(item => template\x60"${item}"\x60)`. -/
def quote (l : List String) : List String :=
  l.map fun item => "\"" ++ item ++ "\""

/-- Source lines 50-71: the constraint keywords pushed for one column, in
push order. -/
def constraintsOf (o : ColumnOptions) : List String :=
  (if o.unique then ["UNIQUE"] else [])
  ++ (if o.primaryKey then ["PRIMARY KEY"] else [])
  ++ (if o.notNull.getD false then ["NOT NULL"] else [])
  ++ (if strTruthy o.check then ["CHECK (" ++ o.check.getD "" ++ ")"] else [])
  ++ (if strTruthy o.references then
        ["REFERENCES " ++ o.references.getD ""]
        ++ (if strTruthy o.onDelete then ["ON DELETE " ++ o.onDelete.getD ""] else [])
        ++ (if strTruthy o.onUpdate then ["ON UPDATE " ++ o.onUpdate.getD ""] else [])
      else [])

/-- Source lines 73-76: one column-definition fragment (the quoted name, the
type, the `DEFAULT` clause when `default` is defined, and the space-joined
constraint list when it is nonempty). -/
def columnFragment (column_name : String) (o : ColumnOptions) : String :=
  "\"" ++ column_name ++ "\" " ++ renderType o.type
  ++ (match o.default with
      | some v => " DEFAULT " ++ escapeValue v
      | none => "")
  ++ (if constraintsOf o = [] then "" else " " ++ joinSep " " (constraintsOf o))

/-- Source lines 36-39: the pre-pass collecting names of primary-key columns.
`_.chain(...).map((options, name) => options.primaryKey ? name : null).filter()`
keeps only truthy entries, so it drops both the `null` placeholders and any
primary-key column whose name is the empty string (the empty string is falsy). -/
def primaryColumnNames (opts : List (String × ColumnOptions)) : List String :=
  opts.filterMap fun p => if p.2.primaryKey ∧ p.1 ≠ "" then some p.1 else none

/-- Source line 79: the table-level composite-primary-key constraint. -/
def pkeyConstraintFragment (table_name : String) (pcs : List String) : String :=
  "CONSTRAINT \"" ++ table_name ++ "_pkey\" PRIMARY KEY (" ++ joinSep ", " (quote pcs) ++ ")"

/-- Source lines 36-82 applied to an already-expanded column set: the
composite-key rewrite (lines 42-47), per-column fragments, the optional
trailing constraint, and the `,\n` join. -/
def compileExpanded (table_name : String) (opts : List (String × ColumnOptions)) :
    String :=
  let primaryColumns := primaryColumnNames opts
  let withPk :=
    if primaryColumns.length > 1
    then opts.map fun p => (p.1, { p.2 with primaryKey := false })
    else opts
  joinSep ",\n"
    ((withPk.map fun p => columnFragment p.1 p.2)
      ++ (if primaryColumns.length > 1
          then [pkeyConstraintFragment table_name primaryColumns]
          else []))

/-- Source lines 22-83: `parseColumns` on value-level (unshared) records. -/
def parseColumns (columns : List (String × ColumnSpecP)) (table_name : String)
    (extending_type_shorthands : List (String × ColumnOptions)) : String :=
  compileExpanded table_name (expandSet extending_type_shorthands columns)

/-- Characters of `s` with `p` inserted after every newline. -/
def leadLinesAux (p : List Char) : List Char → List Char
  | [] => []
  | c :: cs =>
    if c = '\n' then c :: (p ++ leadLinesAux p cs)
    else c :: leadLinesAux p cs

/-- JS `s.replace(/^/gm, p)`: insert `p` at the start of the string and after
every newline (including a trailing one). -/
def leadLines (p s : String) : String :=
  String.mk (p.data ++ leadLinesAux p.data s.data)

/-- Source lines 85-97: `create` (the `inherits` option is the only option
read). -/
def create (type_shorthands : List (String × ColumnOptions)) (table_name : String)
    (columns : List (String × ColumnSpecP)) (inherits : Option String) : String :=
  let columnsString := leadLines "  " (parseColumns columns table_name type_shorthands)
  "CREATE TABLE \"" ++ table_name ++ "\" (\n" ++ columnsString ++ "\n)"
    ++ (if strTruthy inherits then " INHERITS " ++ inherits.getD "" else "") ++ ";"

/-- Source lines 99-100. -/
def drop (table_name : String) : String :=
  "DROP TABLE \"" ++ table_name ++ "\";"

/-- Source lines 102-103. -/
def addColumns (type_shorthands : List (String × ColumnOptions)) (table_name : String)
    (columns : List (String × ColumnSpecP)) : String :=
  "ALTER TABLE \"" ++ table_name ++ "\"\n"
    ++ leadLines "  ADD " (parseColumns columns table_name type_shorthands) ++ ";"

/-- The three shapes accepted for the `columns` argument of `dropColumns`
(source lines 106-110): a single name, an array of names, or a column-set
object of which only the keys are used. -/
inductive DropColumnsArg where
  | str (s : String)
  | arr (l : List String)
  | set (cs : List (String × ColumnSpecP))
  deriving DecidableEq, Repr

/-- The normalised name list of a `dropColumns` argument (source lines
106-110). -/
def dropColumnsNames : DropColumnsArg → List String
  | DropColumnsArg.str s => [s]
  | DropColumnsArg.arr l => l
  | DropColumnsArg.set cs => cs.map Prod.fst

/-- Source lines 105-112. -/
def dropColumns (table_name : String) (columns : DropColumnsArg) : String :=
  "ALTER TABLE \"" ++ table_name ++ "\"\n"
    ++ leadLines "  DROP " (joinSep ",\n" (quote (dropColumnsNames columns))) ++ ";"

/-- Source lines 115-128: the action clauses of `alterColumn`, in push
order.  `default === null` wins over `default !== undefined`; a truthy
`notNull` wins over `notNull === false || allowNull`. -/
def alterActions (o : ColumnOptions) : List String :=
  (match o.default with
   | some JsLit.null => ["DROP DEFAULT"]
   | some v => ["SET DEFAULT " ++ escapeValue v]
   | none => [])
  ++ (if strTruthy o.type
      then ["SET DATA TYPE " ++ applyTypeAdapters (o.type.getD "")]
      else [])
  ++ (if o.notNull.getD false then ["SET NOT NULL"]
      else if o.notNull = some false ∨ o.allowNull then ["DROP NOT NULL"]
      else [])

/-- Source lines 114-131. -/
def alterColumn (table_name column_name : String) (o : ColumnOptions) : String :=
  "ALTER TABLE \"" ++ table_name ++ "\"\n"
    ++ leadLines ("  ALTER \"" ++ column_name ++ "\" ") (joinSep ",\n" (alterActions o))
    ++ ";"

/-- Source lines 134-135. -/
def renameTable (table_name new_name : String) : String :=
  "ALTER TABLE \"" ++ table_name ++ "\" RENAME TO \"" ++ new_name ++ "\";"

/-- Source lines 137-138. -/
def undoRenameTable (table_name new_name : String) : String :=
  renameTable new_name table_name

/-- Source lines 140-141. -/
def renameColumn (table_name column_name new_name : String) : String :=
  "ALTER TABLE \"" ++ table_name ++ "\" RENAME \"" ++ column_name ++ "\" TO \""
    ++ new_name ++ "\";"

/-- Source lines 143-144. -/
def undoRenameColumn (table_name column_name new_name : String) : String :=
  renameColumn table_name new_name column_name

/-- Source line 170: the function registered as `renameTable.reverse`. -/
def renameTableReverse : String → String → String := undoRenameTable

/-- Source line 169: the function registered as `renameColumn.reverse`. -/
def renameColumnReverse : String → String → String → String := undoRenameColumn

/-- Source lines 147-148 (the constraint-name clause is dropped when the name
is absent or empty). -/
def addConstraint (table_name : String) (constraint_name : Option String)
    (expression : String) : String :=
  "ALTER TABLE \"" ++ table_name ++ "\" ADD"
    ++ (if strTruthy constraint_name
        then " CONSTRAINT \"" ++ constraint_name.getD "" ++ "\""
        else "")
    ++ " " ++ expression ++ ";"

/-- Source lines 150-151. -/
def dropConstraint (table_name constraint_name : String) : String :=
  "ALTER TABLE \"" ++ table_name ++ "\" DROP CONSTRAINT \"" ++ constraint_name ++ "\";"

/-- The two shapes accepted by `createType` (source lines 153-157). -/
inductive CreateTypeArg where
  | labels (l : List String)
  | comp (cs : List (String × ColumnSpecP))
  deriving DecidableEq, Repr

/-- Source lines 153-157.  In the composite case the source calls
`parseColumns(options)` with no table name, so the `_pkey` interpolation
would render the text `undefined`. -/
def createType (type_name : String) (options : CreateTypeArg) : String :=
  match options with
  | CreateTypeArg.labels l =>
    "CREATE TYPE \"" ++ type_name ++ "\" AS ENUM ('" ++ joinSep "', '" l ++ "');"
  | CreateTypeArg.comp cs =>
    "CREATE TYPE \"" ++ type_name ++ "\" AS (\n" ++ parseColumns cs "undefined" [] ++ "\n);"

/-- Source lines 159-160. -/
def dropType (type_name : String) : String :=
  "DROP TYPE \"" ++ type_name ++ "\";"

/-- Source line 162: `alterType` ignores its arguments and returns null. -/
def alterType (_ : Unit) : Option String := none

/-! ### Spec-side restatements (for the refinement claims)

`specColumnFragment` follows the words of spec §4.3 / claim C3, as a direct
concatenation rather than the source's push-list-and-join. -/

/-- The constraint suffix as claim C3 words it: "the constraint keywords in
exactly this order when their fields are set: UNIQUE, PRIMARY KEY, NOT NULL,
CHECK (expression), REFERENCES target, with ON DELETE action and ON UPDATE
action emitted only when the references field is present" ("set"/"present"
being JS truthiness, as everywhere in this module). -/
def specConstraintSuffix (o : ColumnOptions) : String :=
  (if o.unique then " UNIQUE" else "")
  ++ (if o.primaryKey then " PRIMARY KEY" else "")
  ++ (if o.notNull.getD false then " NOT NULL" else "")
  ++ (if strTruthy o.check then " CHECK (" ++ o.check.getD "" ++ ")" else "")
  ++ (if strTruthy o.references then
        " REFERENCES " ++ o.references.getD ""
        ++ (if strTruthy o.onDelete then " ON DELETE " ++ o.onDelete.getD "" else "")
        ++ (if strTruthy o.onUpdate then " ON UPDATE " ++ o.onUpdate.getD "" else "")
      else "")

/-- The column fragment as claim C3 words it: "exactly the concatenation, in
fixed order, of: quoted column name, resolved type, a DEFAULT literal clause
if and only if the default field is not undefined (falsy-but-defined values
still produce a DEFAULT clause)", then the constraint keywords. -/
def specColumnFragment (column_name : String) (o : ColumnOptions) : String :=
  "\"" ++ column_name ++ "\" " ++ renderType o.type
  ++ (match o.default with
      | some v => " DEFAULT " ++ escapeValue v
      | none => "")
  ++ specConstraintSuffix o

/-- Claim C5's default concern: "default === null produces DROP DEFAULT and
takes priority over default assignment; a defined non-null default produces
SET DEFAULT literal". -/
def specAlterDefaultConcern (o : ColumnOptions) : List String :=
  match o.default with
  | some JsLit.null => ["DROP DEFAULT"]
  | some v => ["SET DEFAULT " ++ escapeValue v]
  | none => []

/-- Claim C5's type concern: "SET DATA TYPE resolved-type if a type is
given". -/
def specAlterTypeConcern (o : ColumnOptions) : List String :=
  if strTruthy o.type then ["SET DATA TYPE " ++ applyTypeAdapters (o.type.getD "")]
  else []

/-- Claim C5's nullability concern: "SET NOT NULL if notNull is truthy, else
DROP NOT NULL if notNull is explicitly false or allowNull is set". -/
def specAlterNullConcern (o : ColumnOptions) : List String :=
  if o.notNull.getD false then ["SET NOT NULL"]
  else if o.notNull = some false ∨ o.allowNull then ["DROP NOT NULL"]
  else []

/-! ### Heap-passing model of `parseColumns`

Caller-supplied option records are shared mutable JS objects; `parseColumns`
overwrites their `type` field in place (line 31).  Records that a caller can
still observe after the call live in an explicit heap (a list of records,
addressed by position); a column spec refers to such a record by address.
A custom shorthand dictionary maps names to record addresses.  The built-in
`id` shorthand record only ever receives the write `serial ↦ serial` (serial
is not an adapter key), so it is modelled by its value. -/

/-- A column spec as seen by the heap-passing model: a plain string or an
address of a shared record. -/
inductive ColumnSpecH where
  | str (s : String)
  | ref (i : Nat)
  deriving DecidableEq, Repr

/-- What one column resolves to: a shared record address, or a record value
(for a string spec that missed the custom dictionary, where the source builds
a fresh record no caller can observe). -/
inductive Resolved where
  | ref (i : Nat)
  | val (o : ColumnOptions)
  deriving DecidableEq, Repr

/-- The in-place write `options.type = applyTypeAdapters(options.type)` on the
record at address `i`. -/
def mutateAt (h : List ColumnOptions) (i : Nat) : List ColumnOptions :=
  h.set i (adaptRec (h.getD i defaultOpts))

/-- Source lines 25-31 for one column: resolve the spec (custom dictionary
entries shadow built-ins) and perform the type write on the resolved record. -/
def resolveOne (dict : List (String × Nat)) (h : List ColumnOptions) :
    ColumnSpecH → Resolved × List ColumnOptions
  | ColumnSpecH.ref i => (Resolved.ref i, mutateAt h i)
  | ColumnSpecH.str s =>
    match assocFind dict s with
    | some i => (Resolved.ref i, mutateAt h i)
    | none =>
      match assocFind default_type_shorthands s with
      | some r => (Resolved.val (adaptRec r), h)
      | none => (Resolved.val (adaptRec { type := some s }), h)

/-- The resolution outcome of one column, which does not depend on the heap. -/
def resolveOneRes (dict : List (String × Nat)) : ColumnSpecH → Resolved
  | ColumnSpecH.ref i => Resolved.ref i
  | ColumnSpecH.str s =>
    match assocFind dict s with
    | some i => Resolved.ref i
    | none =>
      match assocFind default_type_shorthands s with
      | some r => Resolved.val (adaptRec r)
      | none => Resolved.val (adaptRec { type := some s })

/-- The resolution outcomes of a whole column set. -/
def resolvedOf (dict : List (String × Nat)) (columns : List (String × ColumnSpecH)) :
    List (String × Resolved) :=
  columns.map fun p => (p.1, resolveOneRes dict p.2)

/-- The `_.mapValues` pass (source lines 24-34) over the heap: resolve each
column left to right, threading the heap through the type writes. -/
def resolveAll (dict : List (String × Nat)) :
    List (String × ColumnSpecH) → List ColumnOptions →
    List (String × Resolved) × List ColumnOptions
  | [], h => ([], h)
  | (n, sp) :: rest, h =>
    ((n, (resolveOne dict h sp).1)
        :: (resolveAll dict rest (resolveOne dict h sp).2).1,
     (resolveAll dict rest (resolveOne dict h sp).2).2)

/-- Read a resolved column's record (the source reads the live objects after
the `_.mapValues` pass has finished). -/
def derefResolved (h : List ColumnOptions) : Resolved → ColumnOptions
  | Resolved.ref i => h.getD i defaultOpts
  | Resolved.val o => o

/-- `parseColumns` over the heap: returns the statement fragment text and the
heap after the call (source lines 22-83). -/
def parseColumnsM (h : List ColumnOptions) (columns : List (String × ColumnSpecH))
    (table_name : String) (dict : List (String × Nat)) :
    String × List ColumnOptions :=
  let h' := (resolveAll dict columns h).2
  (compileExpanded table_name
      ((resolveAll dict columns h).1.map fun p => (p.1, derefResolved h' p.2)),
   h')

/-- Heap evolution invariant of a `parseColumns` call: every cell is either
untouched or has received the type-adapter write. -/
def heapApprox (h0 h : List ColumnOptions) : Prop :=
  ∀ r : Nat, h.getD r defaultOpts = h0.getD r defaultOpts
    ∨ h.getD r defaultOpts = adaptRec (h0.getD r defaultOpts)

/-- The record a resolved column denotes after the call, read against the
initial heap: every shared record has received exactly the type-adapter
write. -/
def canonDeref (h0 : List ColumnOptions) : Resolved → ColumnOptions
  | Resolved.ref i => adaptRec (h0.getD i defaultOpts)
  | Resolved.val o => o
/-! ## General lemmas -/

/-- Every value of the adapter table misses the table again, so the adapter
is idempotent. -/
theorem applyTypeAdapters_idem (t : String) :
    applyTypeAdapters (applyTypeAdapters t) = applyTypeAdapters t := by
  rcases h : assocFind type_adapters t with _ | u
  · simp [applyTypeAdapters, h]
  · have hu : assocFind type_adapters u = none := by
      simp only [type_adapters, assocFind] at h
      split_ifs at h
      all_goals injection h with h2
      all_goals subst h2
      all_goals decide
    simp [applyTypeAdapters, h, hu]

/-- The record-level type write is idempotent. -/
theorem adaptRec_idem (o : ColumnOptions) : adaptRec (adaptRec o) = adaptRec o := by
  rcases h : o.type with _ | s <;> simp [adaptRec, h, applyTypeAdapters_idem]

theorem pk_ne_check_frag (c : String) :
    ¬(("PRIMARY KEY" : String) = "CHECK (" ++ c ++ ")") := by
  intro h
  have h2 : (("CHECK (" ++ c) ++ ")").data.head? = some 'C' := by
    rw [String.data_append, String.data_append]; rfl
  rw [← h] at h2
  exact absurd h2 (by decide)

theorem pk_ne_refs_frag (r : String) :
    ¬(("PRIMARY KEY" : String) = "REFERENCES " ++ r) := by
  intro h
  have h2 : ("REFERENCES " ++ r).data.head? = some 'R' := by
    rw [String.data_append]; rfl
  rw [← h] at h2
  exact absurd h2 (by decide)

theorem pk_ne_ondelete_frag (d : String) :
    ¬(("PRIMARY KEY" : String) = "ON DELETE " ++ d) := by
  intro h
  have h2 : ("ON DELETE " ++ d).data.head? = some 'O' := by
    rw [String.data_append]; rfl
  rw [← h] at h2
  exact absurd h2 (by decide)

theorem pk_ne_onupdate_frag (u : String) :
    ¬(("PRIMARY KEY" : String) = "ON UPDATE " ++ u) := by
  intro h
  have h2 : ("ON UPDATE " ++ u).data.head? = some 'O' := by
    rw [String.data_append]; rfl
  rw [← h] at h2
  exact absurd h2 (by decide)

/-- A column whose record does not declare `primaryKey` never receives the
inline `PRIMARY KEY` keyword. -/
theorem pk_not_mem_constraintsOf (o : ColumnOptions) (h : o.primaryKey = false) :
    "PRIMARY KEY" ∉ constraintsOf o := by
  intro hmem
  cases hu : o.unique <;> cases hn : (o.notNull.getD false) <;>
  cases hc : strTruthy o.check <;> cases hr : strTruthy o.references <;>
  cases hd : strTruthy o.onDelete <;> cases hup : strTruthy o.onUpdate <;>
    simp [constraintsOf, h, hu, hn, hc, hr, hd, hup, pk_ne_check_frag,
      pk_ne_refs_frag, pk_ne_ondelete_frag, pk_ne_onupdate_frag] at hmem

/-- A column whose record declares `primaryKey` receives the inline
`PRIMARY KEY` keyword. -/
theorem pk_mem_constraintsOf (o : ColumnOptions) (h : o.primaryKey = true) :
    "PRIMARY KEY" ∈ constraintsOf o := by
  simp [constraintsOf, h]

/-! ## C6: type resolution is total and degrades to identity -/

/-- C6: `applyTypeAdapters` maps each key of the fixed adapter table to its
dialect-native keyword and returns every other token unchanged; being a total
function of the embedding, it raises no error. -/
theorem applyTypeAdapters_total (t : String) :
    (t ∉ type_adapters.map Prod.fst → applyTypeAdapters t = t)
    ∧ applyTypeAdapters "int" = "integer"
    ∧ applyTypeAdapters "string" = "text"
    ∧ applyTypeAdapters "float" = "real"
    ∧ applyTypeAdapters "double" = "double precision"
    ∧ applyTypeAdapters "datetime" = "timestamp"
    ∧ applyTypeAdapters "bool" = "boolean" := by
  refine ⟨?_, by decide, by decide, by decide, by decide, by decide, by decide⟩
  intro h
  simp only [type_adapters, List.map_cons, List.map_nil, List.mem_cons,
    List.not_mem_nil, or_false, not_or] at h
  obtain ⟨h1, h2, h3, h4, h5, h6⟩ := h
  have hnone : assocFind type_adapters t = none := by
    simp [assocFind, type_adapters, Ne.symm h1, Ne.symm h2, Ne.symm h3,
      Ne.symm h4, Ne.symm h5, Ne.symm h6]
  simp [applyTypeAdapters, hnone]

/-- Witness for C6 at the unmapped token `serial` and the mapped token
`int`. -/
theorem applyTypeAdapters_total_witness :
    applyTypeAdapters "serial" = "serial" ∧ applyTypeAdapters "int" = "integer" :=
  ⟨(applyTypeAdapters_total "serial").1 (by decide),
   (applyTypeAdapters_total "int").2.1⟩

/-! ## C7: rename and its registered inverse -/

/-- C7: the function registered as the inverse of `renameTable` applied to
`(x, y)` is exactly `renameTable y x`, and likewise the registered inverse of
`renameColumn` applied to `(t, c, n)` is exactly `renameColumn t n c`; the
statements rename back. -/
theorem rename_inverse_roundtrip (x y t c n : String) :
    renameTableReverse x y = renameTable y x
    ∧ renameColumnReverse t c n = renameColumn t n c
    ∧ renameTableReverse x y = "ALTER TABLE \"" ++ y ++ "\" RENAME TO \"" ++ x ++ "\";"
    ∧ renameColumnReverse t c n
        = "ALTER TABLE \"" ++ t ++ "\" RENAME \"" ++ n ++ "\" TO \"" ++ c ++ "\";" :=
  ⟨rfl, rfl, rfl, rfl⟩

/-! ## C10: alterColumn on an option record with no recognised field -/

/-- C10: with an option record setting none of the recognised fields,
`alterColumn` still returns an `ALTER TABLE` statement whose body is the
dangling clause prefix `  ALTER "column" ` with no action after it (the
model is total, mirroring the absence of any throwing path in the source). -/
theorem alterColumn_empty_options (t c : String) :
    alterColumn t c {} = "ALTER TABLE \"" ++ t ++ "\"\n" ++ ("  ALTER \"" ++ c ++ "\" ") ++ ";" := by
  have hact : alterActions ({} : ColumnOptions) = [] := rfl
  apply String.ext
  simp [alterColumn, hact, joinSep, leadLines, leadLinesAux, String.data_append,
    List.append_assoc]

/-! ## C4: shorthand resolution -/

/-- C4: a string ColumnSpec found in the caller dictionary resolves to the
caller's record (shadowing any built-in of the same name); one found only
among the built-ins resolves to the built-in record; one found nowhere
resolves to a fresh record whose only set field is `type`, equal to the
string itself. -/
theorem resolveColumnSpec_shorthand (ext : List (String × ColumnOptions)) (s : String) :
    (∀ r, assocFind ext s = some r → resolveColumnSpec ext (ColumnSpecP.str s) = r)
    ∧ (assocFind ext s = none →
        ∀ r, assocFind default_type_shorthands s = some r →
          resolveColumnSpec ext (ColumnSpecP.str s) = r)
    ∧ (mergedShorthands ext s = none →
        resolveColumnSpec ext (ColumnSpecP.str s) = { type := some s }) := by
  refine ⟨?_, ?_, ?_⟩
  · intro r h; simp [resolveColumnSpec, mergedShorthands, h]
  · intro h r h2; simp [resolveColumnSpec, mergedShorthands, h, h2]
  · intro h; simp [resolveColumnSpec, h]

/-- Witness for C4: a caller shorthand named `id` shadows the built-in `id`
record, and an unknown string becomes the `type` of a fresh record. -/
theorem resolveColumnSpec_shorthand_witness :
    resolveColumnSpec [("id", { type := some "int" })] (ColumnSpecP.str "id")
        = { type := some "int" }
    ∧ resolveColumnSpec [] (ColumnSpecP.str "varchar(10)")
        = { type := some "varchar(10)" } :=
  ⟨(resolveColumnSpec_shorthand [("id", { type := some "int" })] "id").1 _ rfl,
   (resolveColumnSpec_shorthand [] "varchar(10)").2.2 (by decide)⟩

/-! ## C3: shape of one column-definition fragment -/

/-- C3: the emitted column fragment is exactly the claim's fixed-order
concatenation: quoted name, resolved type, a `DEFAULT` literal clause iff
`default` is defined (falsy-but-defined values included), then `UNIQUE`,
`PRIMARY KEY`, `NOT NULL`, `CHECK (...)`, `REFERENCES ...` with
`ON DELETE`/`ON UPDATE` only under `references`, in that order. -/
theorem columnFragment_matches_spec (column_name : String) (o : ColumnOptions) :
    columnFragment column_name o = specColumnFragment column_name o := by
  cases hu : o.unique <;> cases hp : o.primaryKey <;>
  cases hn : (o.notNull.getD false) <;> cases hc : strTruthy o.check <;>
  cases hr : strTruthy o.references <;> cases hd : strTruthy o.onDelete <;>
  cases hup : strTruthy o.onUpdate <;>
    simp [columnFragment, specColumnFragment, constraintsOf, specConstraintSuffix,
      joinSep, hu, hp, hn, hc, hr, hd, hup, String.append_assoc] <;>
    rfl

/-! ## Lemmas about line-start insertion (`.replace(/^/gm, p)`) -/

theorem leadLinesAux_no_nl (p l : List Char) (h : '\n' ∉ l) :
    leadLinesAux p l = l := by
  induction l with
  | nil => rfl
  | cons c cs ih =>
    have hc : ¬(c = '\n') := fun e => h (by simp [e])
    simp [leadLinesAux, hc, ih (fun hm => h (List.mem_cons_of_mem c hm))]

theorem leadLinesAux_append (p a b : List Char) (h : '\n' ∉ a) :
    leadLinesAux p (a ++ b) = a ++ leadLinesAux p b := by
  induction a with
  | nil => simp
  | cons c cs ih =>
    have hc : ¬(c = '\n') := fun e => h (by simp [e])
    simp [leadLinesAux, hc, ih (fun hm => h (List.mem_cons_of_mem c hm))]

/-- On a nonempty `,\n`-joined clause list whose clauses contain no newline,
the JS multiline replace `/^/gm ↦ p` is exactly prefixing every clause. -/
theorem leadLines_joinSep (p : String) (xs : List String)
    (hnl : ∀ x ∈ xs, '\n' ∉ x.data) (hne : xs ≠ []) :
    leadLines p (joinSep ",\n" xs) = joinSep ",\n" (xs.map fun x => p ++ x) := by
  induction xs with
  | nil => exact absurd rfl hne
  | cons x xs ih =>
    cases xs with
    | nil =>
      apply String.ext
      show p.data ++ leadLinesAux p.data x.data = ((p ++ x) : String).data
      rw [String.data_append, leadLinesAux_no_nl p.data x.data (hnl x (by simp))]
    | cons y ys =>
      have hx : '\n' ∉ x.data := hnl x (by simp)
      have ihy := ih (fun z hz => hnl z (List.mem_cons_of_mem x hz)) (by simp)
      have e1 : joinSep ",\n" (x :: y :: ys) = x ++ ",\n" ++ joinSep ",\n" (y :: ys) := rfl
      have e2 : joinSep ",\n" ((x :: y :: ys).map fun z => p ++ z)
          = (p ++ x) ++ ",\n" ++ joinSep ",\n" ((y :: ys).map fun z => p ++ z) := rfl
      rw [e1, e2, ← ihy]
      apply String.ext
      show p.data ++ leadLinesAux p.data ((x ++ ",\n" ++ joinSep ",\n" (y :: ys)).data)
          = (((p ++ x) ++ ",\n") ++ leadLines p (joinSep ",\n" (y :: ys))).data
      rw [String.data_append, String.data_append, String.data_append, String.data_append]
      show p.data ++ leadLinesAux p.data
            ((x.data ++ [',', '\n']) ++ (joinSep ",\n" (y :: ys)).data)
          = ((p.data ++ x.data) ++ [',', '\n'])
            ++ (p.data ++ leadLinesAux p.data (joinSep ",\n" (y :: ys)).data)
      rw [List.append_assoc x.data]
      rw [show ([',', '\n'] ++ (joinSep ",\n" (y :: ys)).data)
            = ',' :: '\n' :: (joinSep ",\n" (y :: ys)).data from rfl]
      rw [leadLinesAux_append p.data x.data _ hx]
      rw [show leadLinesAux p.data (',' :: '\n' :: (joinSep ",\n" (y :: ys)).data)
            = ',' :: '\n' :: (p.data ++ leadLinesAux p.data (joinSep ",\n" (y :: ys)).data)
          from by simp [leadLinesAux]]
      simp [List.append_assoc]

/-! ## C5: alterColumn clause precedence and assembly -/

/-- C5: the `alterColumn` actions are exactly the three concern lists of the
claim in order (default removal before default assignment, then data type,
then nullability), each concern contributes at most one clause, and the
statement is the comma-joined clauses each prefixed with `  ALTER "column" `
under one `ALTER TABLE` (stated for deltas producing at least one
newline-free clause; an empty delta instead leaves the dangling prefix,
see `alterColumn_empty_options`). -/
theorem alterColumn_clauses (t c : String) (o : ColumnOptions)
    (hne : alterActions o ≠ [])
    (hnl : ∀ a ∈ alterActions o, '\n' ∉ a.data) :
    alterActions o
      = specAlterDefaultConcern o ++ specAlterTypeConcern o ++ specAlterNullConcern o
    ∧ (specAlterDefaultConcern o).length ≤ 1
    ∧ (specAlterTypeConcern o).length ≤ 1
    ∧ (specAlterNullConcern o).length ≤ 1
    ∧ alterColumn t c o
        = "ALTER TABLE \"" ++ t ++ "\"\n"
          ++ joinSep ",\n" ((alterActions o).map fun a => ("  ALTER \"" ++ c ++ "\" ") ++ a)
          ++ ";" := by
  refine ⟨rfl, ?_, ?_, ?_, ?_⟩
  · rcases h : o.default with _ | v
    · simp [specAlterDefaultConcern, h]
    · cases v <;> simp [specAlterDefaultConcern, h]
  · unfold specAlterTypeConcern; split <;> simp
  · unfold specAlterNullConcern
    split
    · simp
    · split <;> simp
  · simp only [alterColumn]
    rw [leadLines_joinSep _ _ hnl hne]

/-- Witness for C5 at the spec's own example
`alterColumn('users', 'age', { type: 'int', notNull: false })`. -/
theorem alterColumn_clauses_witness :
    alterColumn "users" "age" { type := some "int", notNull := some false }
      = "ALTER TABLE \"users\"\n  ALTER \"age\" SET DATA TYPE integer,\n  ALTER \"age\" DROP NOT NULL;" := by
  have h := alterColumn_clauses "users" "age"
    { type := some "int", notNull := some false } (by decide) (by decide)
  exact h.2.2.2.2.trans (by decide)

/-! ## C9: the three argument forms of dropColumns -/

/-- C9: `dropColumns` normalises a single name to a one-element sequence, an
array to itself, and a column-set object to its keys in order, and emits one
`ALTER TABLE` statement with one `DROP "name"` clause per column,
comma-joined, in the given order (stated for at least one name, names
newline-free); in particular the single-string form equals the singleton
array form unconditionally. -/
theorem dropColumns_forms (t s : String) (arg : DropColumnsArg)
    (hnl : ∀ n ∈ dropColumnsNames arg, '\n' ∉ n.data)
    (hne : dropColumnsNames arg ≠ []) :
    dropColumns t arg
      = "ALTER TABLE \"" ++ t ++ "\"\n"
        ++ joinSep ",\n" ((dropColumnsNames arg).map fun n => "  DROP \"" ++ n ++ "\"")
        ++ ";"
    ∧ dropColumns t (DropColumnsArg.str s) = dropColumns t (DropColumnsArg.arr [s])
    ∧ dropColumnsNames (DropColumnsArg.str s) = [s]
    ∧ (∀ cs : List (String × ColumnSpecP),
        dropColumnsNames (DropColumnsArg.set cs) = cs.map Prod.fst) := by
  refine ⟨?_, rfl, rfl, fun cs => rfl⟩
  have hq : ∀ q ∈ quote (dropColumnsNames arg), '\n' ∉ q.data := by
    intro q hq
    obtain ⟨n, hn, rfl⟩ := List.mem_map.1 hq
    rw [String.data_append, String.data_append]
    intro hmem
    rcases List.mem_append.1 hmem with hmem2 | hmem2
    · rcases List.mem_append.1 hmem2 with hmem3 | hmem3
      · exact absurd hmem3 (by decide)
      · exact hnl n hn hmem3
    · exact absurd hmem2 (by decide)
  have hqne : quote (dropColumnsNames arg) ≠ [] := by
    simpa [quote] using hne
  simp only [dropColumns]
  rw [leadLines_joinSep _ _ hq hqne, quote, List.map_map]
  rfl

/-- Witness for C9 at the spec's own example
`dropColumns('users', ['name', 'age'])`. -/
theorem dropColumns_forms_witness :
    dropColumns "users" (DropColumnsArg.arr ["name", "age"])
      = "ALTER TABLE \"users\"\n  DROP \"name\",\n  DROP \"age\";" := by
  have h := dropColumns_forms "users" "x" (DropColumnsArg.arr ["name", "age"])
    (by decide) (by decide)
  exact h.1.trans (by decide)

/-! ## C1: composite versus inline primary key -/

/-- When every column name is nonempty, the `_.filter()` pre-pass keeps
exactly the names of the `primaryKey` columns, in order. -/
theorem primaryColumnNames_of_nonempty (opts : List (String × ColumnOptions))
    (h : ∀ p ∈ opts, p.1 ≠ "") :
    primaryColumnNames opts
      = opts.filterMap fun p => if p.2.primaryKey then some p.1 else none := by
  unfold primaryColumnNames
  apply List.filterMap_congr
  intro p hp
  cases hpk : p.2.primaryKey <;> simp [hpk, h p hp]

/-- C1 (amended: stated for ColumnSets whose column names are all nonempty;
`parseColumns_composite_primary_key_cex` shows the empty-name exception):
with more than one `primaryKey: true` column, every fragment is rendered from
a record with `primaryKey` cleared — so no fragment carries the inline
`PRIMARY KEY` keyword — and exactly one trailing
`CONSTRAINT "<table>_pkey" PRIMARY KEY (...)` fragment is appended listing
the declaring columns in original ColumnSet order; with exactly one such
column, the output is the per-column fragments alone (no `_pkey` constraint)
and the declaring column keeps its inline `PRIMARY KEY`. -/
theorem parseColumns_composite_primary_key
    (columns : List (String × ColumnSpecP)) (table_name : String)
    (ext : List (String × ColumnOptions))
    (hname : ∀ p ∈ columns, p.1 ≠ "") :
    ((primaryColumnNames (expandSet ext columns)).length > 1 →
      parseColumns columns table_name ext
        = joinSep ",\n"
            (((expandSet ext columns).map fun p =>
                columnFragment p.1 { p.2 with primaryKey := false })
              ++ [pkeyConstraintFragment table_name
                    (primaryColumnNames (expandSet ext columns))])
        ∧ (∀ o : ColumnOptions,
            "PRIMARY KEY" ∉ constraintsOf { o with primaryKey := false })
        ∧ primaryColumnNames (expandSet ext columns)
            = (expandSet ext columns).filterMap fun p =>
                if p.2.primaryKey then some p.1 else none)
    ∧ ((primaryColumnNames (expandSet ext columns)).length = 1 →
      parseColumns columns table_name ext
        = joinSep ",\n" ((expandSet ext columns).map fun p => columnFragment p.1 p.2)
        ∧ ∀ p ∈ expandSet ext columns, p.2.primaryKey = true →
            "PRIMARY KEY" ∈ constraintsOf p.2) := by
  have hname2 : ∀ p ∈ expandSet ext columns, p.1 ≠ "" := by
    intro p hp
    obtain ⟨q, hq, rfl⟩ := List.mem_map.1 hp
    exact hname q hq
  constructor
  · intro hmulti
    refine ⟨?_, ?_, primaryColumnNames_of_nonempty _ hname2⟩
    · simp only [parseColumns, compileExpanded]
      rw [if_pos hmulti, if_pos hmulti, List.map_map]
      rfl
    · intro o; exact pk_not_mem_constraintsOf _ rfl
  · intro hone
    have hnot : ¬((primaryColumnNames (expandSet ext columns)).length > 1) := by omega
    refine ⟨?_, ?_⟩
    · simp only [parseColumns, compileExpanded]
      rw [if_neg hnot, if_neg hnot, List.append_nil]
    · intro p hp hpk; exact pk_mem_constraintsOf _ hpk

/-- Counterexample to C1 as stated: in the ColumnSet with primary-key columns
named `""` and `"a"`, two columns declare `primaryKey: true`, yet both
fragments carry the inline `PRIMARY KEY` keyword and no `_pkey` constraint is
appended (the `_.filter()` pre-pass drops the falsy empty-string name), so
the output differs from the composite form the claim mandates. -/
theorem parseColumns_composite_primary_key_cex :
    ((([("", ColumnSpecP.record { type := some "int", primaryKey := true }),
        ("a", ColumnSpecP.record { type := some "int", primaryKey := true })] :
          List (String × ColumnSpecP)).countP
        fun p => (expandColumn [] p.2).primaryKey) = 2)
    ∧ parseColumns
        [("", ColumnSpecP.record { type := some "int", primaryKey := true }),
         ("a", ColumnSpecP.record { type := some "int", primaryKey := true })] "t" []
        = "\"\" integer PRIMARY KEY,\n\"a\" integer PRIMARY KEY"
    ∧ parseColumns
        [("", ColumnSpecP.record { type := some "int", primaryKey := true }),
         ("a", ColumnSpecP.record { type := some "int", primaryKey := true })] "t" []
        ≠ joinSep ",\n"
            ((([("", ColumnSpecP.record { type := some "int", primaryKey := true }),
                ("a", ColumnSpecP.record { type := some "int", primaryKey := true })] :
                  List (String × ColumnSpecP)).map fun p =>
                columnFragment p.1 { (expandColumn [] p.2) with primaryKey := false })
              ++ [pkeyConstraintFragment "t" ["", "a"]]) :=
  ⟨by decide, by decide, by decide⟩

/-- Witness for C1: two columns using the built-in `id` shorthand produce the
composite-key form. -/
theorem parseColumns_composite_primary_key_witness :
    parseColumns [("a", ColumnSpecP.str "id"), ("b", ColumnSpecP.str "id")] "t" []
      = "\"a\" serial,\n\"b\" serial,\nCONSTRAINT \"t_pkey\" PRIMARY KEY (\"a\", \"b\")" := by
  have h := parseColumns_composite_primary_key
    [("a", ColumnSpecP.str "id"), ("b", ColumnSpecP.str "id")] "t" [] (by decide)
  exact ((h.1 (by decide)).1).trans (by decide)

/-! ## Heap lemmas for the stateful model -/

theorem getD_oob (h : List ColumnOptions) (i : Nat) (hle : h.length ≤ i) :
    h.getD i defaultOpts = defaultOpts := by
  simp [List.getD_eq_getElem?_getD, List.getElem?_eq_none hle]

theorem adaptRec_defaultOpts : adaptRec defaultOpts = defaultOpts := rfl

theorem getD_mutateAt_self (h : List ColumnOptions) (i : Nat) :
    (mutateAt h i).getD i defaultOpts = adaptRec (h.getD i defaultOpts) := by
  by_cases hlt : i < h.length
  · simp [mutateAt, List.getD_eq_getElem?_getD, List.getElem?_set_self, hlt]
  · have hle : h.length ≤ i := Nat.le_of_not_lt hlt
    rw [mutateAt, List.set_eq_of_length_le hle, getD_oob h i hle]
    exact adaptRec_defaultOpts.symm

theorem getD_mutateAt_ne (h : List ColumnOptions) (i r : Nat) (hne : r ≠ i) :
    (mutateAt h i).getD r defaultOpts = h.getD r defaultOpts := by
  simp [mutateAt, List.getD_eq_getElem?_getD, List.getElem?_set_ne (Ne.symm hne)]

theorem heapApprox_refl (h : List ColumnOptions) : heapApprox h h :=
  fun _ => Or.inl rfl

theorem heapApprox_mutateAt (h0 h : List ColumnOptions) (i : Nat)
    (hI : heapApprox h0 h) : heapApprox h0 (mutateAt h i) := by
  intro r
  by_cases hri : r = i
  · subst hri
    rw [getD_mutateAt_self]
    rcases hI r with h1 | h1
    · rw [h1]; exact Or.inr rfl
    · rw [h1, adaptRec_idem]; exact Or.inr rfl
  · rw [getD_mutateAt_ne h i r hri]; exact hI r

/-- One resolution step either leaves the heap alone and yields a record
value, or performs the type write at the resolved address. -/
theorem resolveOne_cases (dict : List (String × Nat)) (h : List ColumnOptions)
    (sp : ColumnSpecH) :
    ((resolveOne dict h sp).2 = h ∧ ∃ o, (resolveOne dict h sp).1 = Resolved.val o)
    ∨ ∃ i, (resolveOne dict h sp).2 = mutateAt h i
        ∧ (resolveOne dict h sp).1 = Resolved.ref i := by
  cases sp with
  | ref i => exact Or.inr ⟨i, rfl, rfl⟩
  | str s =>
    rcases hd : assocFind dict s with _ | i
    · rcases hb : assocFind default_type_shorthands s with _ | r <;>
        simp [resolveOne, hd, hb]
    · right; exact ⟨i, by simp [resolveOne, hd], by simp [resolveOne, hd]⟩

/-- The resolution outcome does not depend on the heap. -/
theorem resolveOne_fst (dict : List (String × Nat)) (h : List ColumnOptions)
    (sp : ColumnSpecH) :
    (resolveOne dict h sp).1 = resolveOneRes dict sp := by
  cases sp with
  | ref i => rfl
  | str s =>
    rcases hd : assocFind dict s with _ | i
    · rcases hb : assocFind default_type_shorthands s with _ | r <;>
        simp [resolveOne, resolveOneRes, hd, hb]
    · simp [resolveOne, resolveOneRes, hd]

theorem resolveAll_fst (dict : List (String × Nat))
    (cols : List (String × ColumnSpecH)) :
    ∀ h, (resolveAll dict cols h).1 = resolvedOf dict cols := by
  induction cols with
  | nil => intro h; rfl
  | cons c rest ih =>
    intro h
    obtain ⟨n, sp⟩ := c
    show ((n, (resolveOne dict h sp).1) :: (resolveAll dict rest (resolveOne dict h sp).2).1)
        = (n, resolveOneRes dict sp) :: resolvedOf dict rest
    rw [resolveOne_fst, ih]

theorem resolveAll_length (dict : List (String × Nat))
    (cols : List (String × ColumnSpecH)) :
    ∀ h, (resolveAll dict cols h).2.length = h.length := by
  induction cols with
  | nil => intro h; rfl
  | cons c rest ih =>
    intro h
    obtain ⟨n, sp⟩ := c
    show (resolveAll dict rest (resolveOne dict h sp).2).2.length = h.length
    rcases resolveOne_cases dict h sp with ⟨h1, _⟩ | ⟨i, h1, _⟩
    · rw [h1, ih]
    · rw [h1, ih]; simp [mutateAt]

theorem heapApprox_resolveAll (dict : List (String × Nat))
    (cols : List (String × ColumnSpecH)) :
    ∀ h0 h, heapApprox h0 h → heapApprox h0 (resolveAll dict cols h).2 := by
  induction cols with
  | nil => intro h0 h hI; exact hI
  | cons c rest ih =>
    intro h0 h hI
    obtain ⟨n, sp⟩ := c
    show heapApprox h0 (resolveAll dict rest (resolveOne dict h sp).2).2
    rcases resolveOne_cases dict h sp with ⟨h1, _⟩ | ⟨i, h1, _⟩
    · rw [h1]; exact ih h0 h hI
    · rw [h1]; exact ih h0 _ (heapApprox_mutateAt h0 h i hI)

/-- A cell already holding the type-adapted record keeps exactly that value
through the rest of the pass (later writes are idempotent). -/
theorem resolveAll_preserves_adapted (dict : List (String × Nat))
    (cols : List (String × ColumnSpecH)) :
    ∀ h0 h r, heapApprox h0 h →
      h.getD r defaultOpts = adaptRec (h0.getD r defaultOpts) →
      (resolveAll dict cols h).2.getD r defaultOpts
        = adaptRec (h0.getD r defaultOpts) := by
  induction cols with
  | nil => intro h0 h r hI hr; exact hr
  | cons c rest ih =>
    intro h0 h r hI hr
    obtain ⟨n, sp⟩ := c
    show (resolveAll dict rest (resolveOne dict h sp).2).2.getD r defaultOpts = _
    rcases resolveOne_cases dict h sp with ⟨h1, _⟩ | ⟨i, h1, _⟩
    · rw [h1]; exact ih h0 h r hI hr
    · rw [h1]
      apply ih h0 _ r (heapApprox_mutateAt h0 h i hI)
      by_cases hri : r = i
      · subst hri
        rw [getD_mutateAt_self, hr, adaptRec_idem]
      · rw [getD_mutateAt_ne h i r hri]; exact hr

/-- After the pass, every cell referenced by some resolved column holds
exactly the type-adapted value of its initial record. -/
theorem resolveAll_ref_adapted (dict : List (String × Nat))
    (cols : List (String × ColumnSpecH)) :
    ∀ h0 h, heapApprox h0 h →
      ∀ n i, (n, Resolved.ref i) ∈ resolvedOf dict cols →
        (resolveAll dict cols h).2.getD i defaultOpts
          = adaptRec (h0.getD i defaultOpts) := by
  induction cols with
  | nil => intro h0 h _ n i hmem; simp [resolvedOf] at hmem
  | cons c rest ih =>
    intro h0 h hI n i hmem
    obtain ⟨nm, sp⟩ := c
    have hmem2 : (n, Resolved.ref i) ∈ (nm, resolveOneRes dict sp) :: resolvedOf dict rest := by
      simpa [resolvedOf] using hmem
    show (resolveAll dict rest (resolveOne dict h sp).2).2.getD i defaultOpts = _
    rcases List.mem_cons.1 hmem2 with hhead | htail
    · have hres : resolveOneRes dict sp = Resolved.ref i := by
        have := congrArg Prod.snd hhead
        exact this.symm
      rcases resolveOne_cases dict h sp with ⟨h1, o, h2⟩ | ⟨j, h1, h2⟩
      · rw [resolveOne_fst, hres] at h2
        exact absurd h2 (by simp)
      · rw [resolveOne_fst, hres] at h2
        injection h2 with hji
        subst hji
        rw [h1]
        apply resolveAll_preserves_adapted dict rest h0 _ i
          (heapApprox_mutateAt h0 h i hI)
        rw [getD_mutateAt_self]
        rcases hI i with h3 | h3
        · rw [h3]
        · rw [h3, adaptRec_idem]
    · rcases resolveOne_cases dict h sp with ⟨h1, _⟩ | ⟨j, h1, _⟩
      · rw [h1]; exact ih h0 h hI n i htail
      · rw [h1]; exact ih h0 _ (heapApprox_mutateAt h0 h j hI) n i htail

/-- Under the invariant, the output text of a `parseColumns` call is a
function of the initial heap alone. -/
theorem parseColumnsM_fst_canon (h0 h : List ColumnOptions)
    (cols : List (String × ColumnSpecH)) (t : String) (dict : List (String × Nat))
    (hI : heapApprox h0 h) :
    (parseColumnsM h cols t dict).1
      = compileExpanded t ((resolvedOf dict cols).map fun p => (p.1, canonDeref h0 p.2)) := by
  simp only [parseColumnsM]
  rw [resolveAll_fst]
  congr 1
  apply List.map_congr_left
  intro p hp
  obtain ⟨n, r⟩ := p
  cases r with
  | val o => rfl
  | ref i =>
    simp only [derefResolved, canonDeref]
    exact congrArg (Prod.mk n) (resolveAll_ref_adapted dict cols h0 h hI n i hp)

/-! ## C2: mutation of caller-supplied records -/

/-- Counterexample to C2 as stated: for the ColumnSet whose single column
refers to the caller record `{ type: 'int' }`, the record is changed by the
call — its `type` has been overwritten with `integer`. -/
theorem parseColumnsM_mutates_input_cex :
    (parseColumnsM [({ type := some "int" } : ColumnOptions)]
        [("a", ColumnSpecH.ref 0)] "t" []).2
      ≠ [({ type := some "int" } : ColumnOptions)] := by
  decide

/-- C2 (amended): the only change `parseColumns` makes to caller-supplied
structures is overwriting the `type` field of resolved records with its
adapter image: after the call every record is either untouched or equal to
its type-adapted original, and no record is added or removed. -/
theorem parseColumnsM_only_type_adapted (h : List ColumnOptions)
    (cols : List (String × ColumnSpecH)) (t : String) (dict : List (String × Nat)) :
    heapApprox h (parseColumnsM h cols t dict).2
    ∧ (parseColumnsM h cols t dict).2.length = h.length :=
  ⟨heapApprox_resolveAll dict cols h h (heapApprox_refl h),
   resolveAll_length dict cols h⟩

/-! ## C8: referential transparency across shared mutable records -/

/-- C8: repeating a `parseColumns` call on the very records (and shorthand
dictionary) the first call resolved — and possibly mutated — yields the same
output text: the type-adapter write is idempotent, so the output is a
function of the call's inputs alone. -/
theorem parseColumnsM_referential_transparency (h : List ColumnOptions)
    (cols : List (String × ColumnSpecH)) (t : String) (dict : List (String × Nat)) :
    (parseColumnsM ((parseColumnsM h cols t dict).2) cols t dict).1
      = (parseColumnsM h cols t dict).1 := by
  have h1 := parseColumnsM_fst_canon h h cols t dict (heapApprox_refl h)
  have h2 := parseColumnsM_fst_canon h ((parseColumnsM h cols t dict).2) cols t dict
    (heapApprox_resolveAll dict cols h h (heapApprox_refl h))
  exact h2.trans h1.symm
